import Mathlib

/-!
# Verification of the ergonomics process-tracking backend

A shallow embedding of the step-sequencing core of the `ergonomics`
repository (`src/backend/process_analysis_service.py`,
`src/backend/api/tracking_controller.py`,
`src/backend/api/analysis_controller.py`), with theorems checking the
natural-language specification against the code.

Conventions of the embedding:
* Python floats (timestamps, coordinates, confidences, durations) are
  modelled as `ℚ`; Python `None` as `Option`.
* Python dicts with a fixed key set (zones, steps, step events, session
  data) are modelled as structures whose fields are exactly the keys the
  source ever writes.
* `time.time()` calls are modelled by an explicit `now : ℚ` argument.
* Methods that mutate `self` become state-passing functions
  `State → args → State` (or `State → args → result × State`).
-/

namespace Ergonomics

/-! ## Data model

Zone rows as returned by `DatabaseService.get_zones_for_environment` and
consumed by `process_analysis_service.py` (keys `Id`, `ZoneName`,
`Xstart`, `Ystart`, `Xend`, `Yend`, `Color`). -/

structure Zone where
  Id : ℕ
  ZoneName : String
  Xstart : ℚ
  Ystart : ℚ
  Xend : ℚ
  Yend : ℚ
  Color : String
deriving DecidableEq

/-- Step rows as returned by `DatabaseService.get_process_steps` and read
by the step-advancement code (keys `StepName`, `TargetZoneId`, `ZoneName`,
`Duration`; `check_step_advancement` reads `ZoneName` via
`.get('ZoneName', 'Unknown')`, modelled as an always-present field). -/
structure StepDef where
  StepName : String
  TargetZoneId : ℕ
  ZoneName : String
  Duration : ℚ
deriving DecidableEq

/-- Process rows (`get_process_by_id`): only `Id` and `ProcessName` are
read by the modelled code. -/
structure ProcessRec where
  Id : ℕ
  ProcessName : String
deriving DecidableEq

/-- A step-completion record, as appended by
`ProcessAnalysisService.check_step_progress` (lines 257-264) and by
`tracking_controller.check_step_advancement` (lines 167-174): keys
`step_number`, `step_name`, `zone_hit`, `time`, `duration`,
`target_duration`. -/
structure StepEvent where
  step_number : ℕ
  step_name : String
  zone_hit : String
  time : ℚ
  duration : ℚ
  target_duration : ℚ
deriving DecidableEq

/-- `ProcessAnalysisService.session_data`: the dict is assigned exactly
twice (in `__init__` and in `start_tracking`), and these are the only keys
it is ever given.  `start_time` is `None` until `start_tracking` runs;
`process_id` is absent from the `__init__` dict, modelled as `none`.
`zone_hits` and `completion_times` are initialised empty and never
appended to anywhere in the source (their element type is immaterial). -/
structure SessionData where
  start_time : Option ℚ
  step_events : List StepEvent
  current_step : ℕ
  zone_hits : List ℚ
  completion_times : List ℚ
  process_id : Option ℕ
deriving DecidableEq

/-- The mutable state of one `ProcessAnalysisService` instance.  The YOLO
model handle, database handle and `hand_offset_pixels` are omitted: they
play no role in the modelled operations. -/
structure ProcessAnalysisService where
  is_tracking : Bool
  current_process : Option ProcessRec
  current_zones : List Zone
  process_steps : List StepDef
  session_data : SessionData
  conf_threshold : ℚ
deriving DecidableEq

/-! ## Adherence calculator (`calculate_adherence_metrics`, lines 271-313) -/

/-- The metrics dict built on the non-empty branch of
`calculate_adherence_metrics` (lines 304-313). -/
structure AdherenceMetrics where
  overall_adherence : ℚ
  completion_adherence : ℚ
  timing_adherence : ℚ
  completed_steps : ℕ
  total_steps : ℕ
  total_time : ℚ
  target_total_time : ℚ
  step_details : List StepEvent
deriving DecidableEq

/-- The two possible shapes returned by `calculate_adherence_metrics`: the
empty-log early return `{'adherence_score': 0, 'message': 'No steps
completed'}` (line 274), or the full metrics dict. -/
inductive AdherenceResult where
  | noSteps (adherence_score : ℚ) (message : String)
  | metrics (m : AdherenceMetrics)
deriving DecidableEq

/-- Python `round(q, 2)` on the reported scores, modelled as rounding to a
half-up rational with two decimal places (Python rounds floats half to
even; the two agree except at exact half-hundredths, which the scores
never are up to float noise). -/
def round2 (q : ℚ) : ℚ := ((round (q * 100) : ℤ) : ℚ) / 100

/-- The per-event timing score (lines 288-295): `ratio = duration /
target_duration`; 100 if `ratio ≤ 1.2`, `max(0, 100 - (ratio-1)*100)` if
`ratio ≤ 2.0`, else 0. -/
def timing_score (event : StepEvent) : ℚ :=
  let time_ratio := event.duration / event.target_duration
  if time_ratio ≤ 6/5 then 100
  else if time_ratio ≤ 2 then max 0 (100 - (time_ratio - 1) * 100)
  else 0

/-- `completion_adherence = (completed_steps / total_steps) * 100`
(line 280). -/
def completion_adherence_calc (completed_steps total_steps : ℕ) : ℚ :=
  ((completed_steps : ℚ) / (total_steps : ℚ)) * 100

/-- `avg_timing_adherence = sum(timing_scores) / len(timing_scores) if
timing_scores else 0` (lines 283-299). -/
def avg_timing_adherence (events : List StepEvent) : ℚ :=
  let timing_scores := events.map timing_score
  if timing_scores.isEmpty then 0
  else timing_scores.sum / (timing_scores.length : ℚ)

/-- `overall_adherence = (completion_adherence * 0.7) +
(avg_timing_adherence * 0.3)` (line 302). -/
def overall_adherence_calc (completion avg_timing : ℚ) : ℚ :=
  completion * (7/10) + avg_timing * (3/10)

/-- `ProcessAnalysisService.calculate_adherence_metrics` (lines 271-313).
The empty-log branch returns before any division is evaluated. -/
def calculate_adherence_metrics (s : ProcessAnalysisService)
    (total_time : ℚ) : AdherenceResult :=
  if s.session_data.step_events.isEmpty then
    .noSteps 0 "No steps completed"
  else
    let total_steps := s.process_steps.length
    let completed_steps := s.session_data.step_events.length
    let completion := completion_adherence_calc completed_steps total_steps
    let avg_timing := avg_timing_adherence s.session_data.step_events
    let overall := overall_adherence_calc completion avg_timing
    .metrics {
      overall_adherence := round2 overall,
      completion_adherence := round2 completion,
      timing_adherence := round2 avg_timing,
      completed_steps := completed_steps,
      total_steps := total_steps,
      total_time := round2 total_time,
      target_total_time := (s.process_steps.map (fun st => st.Duration)).sum,
      step_details := s.session_data.step_events }

/-! ## Service lifecycle (`start_tracking`, `stop_tracking`) -/

/-- `ProcessAnalysisService.start_tracking` (lines 52-68): raises
`ValueError` (modelled as `none`) unless a process and its steps are
loaded; otherwise resets `session_data` and sets the tracking flag. -/
def start_tracking (s : ProcessAnalysisService) (now : ℚ) :
    Option ProcessAnalysisService :=
  match s.current_process with
  | none => none
  | some proc =>
      if s.process_steps.isEmpty then none
      else some { s with
        is_tracking := true,
        session_data := {
          start_time := some now,
          step_events := [],
          current_step := 0,
          zone_hits := [],
          completion_times := [],
          process_id := some proc.Id } }

/-- `ProcessAnalysisService.stop_tracking` (lines 70-85): returns `None`
(without touching any state) when not tracking; otherwise clears the flag
and returns the adherence metrics over the elapsed total time. -/
def stop_tracking (s : ProcessAnalysisService) (now : ℚ) :
    Option AdherenceResult × ProcessAnalysisService :=
  if !s.is_tracking then (none, s)
  else
    let s' := { s with is_tracking := false }
    let total_time := now - s.session_data.start_time.getD 0
    (some (calculate_adherence_metrics s' total_time), s')

/-! ## Geometry predicates -/

/-- `ProcessAnalysisService.check_zone_collision` (lines 117-124): a hand
position (or `None`) against a zone rectangle, bounds inclusive. -/
def check_zone_collision (hand_pos : Option (ℚ × ℚ)) (zone : Zone) : Bool :=
  match hand_pos with
  | none => false
  | some (x, y) =>
      decide (zone.Xstart ≤ x ∧ x ≤ zone.Xend ∧ zone.Ystart ≤ y ∧ y ≤ zone.Yend)

/-- Zones as passed to the streaming tracker
(`tracking_controller.py`): keys `id`, `name`, `x`, `y`, `width`,
`height`. -/
structure ZoneBox where
  id : ℕ
  name : String
  x : ℚ
  y : ℚ
  width : ℚ
  height : ℚ
deriving DecidableEq

/-- One pose keypoint `[x, y, conf]` as assembled in `generate_frames`. -/
structure Point where
  x : ℚ
  y : ℚ
  conf : ℚ
deriving DecidableEq

def LEFT_WRIST_IDX : ℕ := 9
def RIGHT_WRIST_IDX : ℕ := 10

/-- The per-wrist containment check inlined twice in
`tracking_controller.check_hand_in_zone` (lines 105-109 and 113-117):
guard `idx < len(kp)`, then `conf > conf_threshold`, then the inclusive
rectangle bounds `zone['x'] <= x <= zone['x'] + zone['width']` and
`zone['y'] <= y <= zone['y'] + zone['height']`. -/
def wrist_in_zone (kp : List Point) (idx : ℕ) (zone : ZoneBox)
    (conf_threshold : ℚ) : Bool :=
  match kp.get? idx with
  | none => false
  | some p =>
      if p.conf > conf_threshold then
        decide (zone.x ≤ p.x ∧ p.x ≤ zone.x + zone.width ∧
                zone.y ≤ p.y ∧ p.y ≤ zone.y + zone.height)
      else false

/-- `tracking_controller.check_hand_in_zone` (lines 102-120): scans the
detected persons, left wrist before right wrist, returning the first hit
together with the hand label. -/
def check_hand_in_zone : List (List Point) → ZoneBox → ℚ → Bool × Option String
  | [], _, _ => (false, none)
  | kp :: rest, zone, conf_threshold =>
      if wrist_in_zone kp LEFT_WRIST_IDX zone conf_threshold then (true, some "left")
      else if wrist_in_zone kp RIGHT_WRIST_IDX zone conf_threshold then (true, some "right")
      else check_hand_in_zone rest zone conf_threshold

/-! ## Step sequencing: the per-frame service path -/

/-- `ProcessAnalysisService.check_step_progress` (lines 222-269).
`hands` is the value list of the `{'left': .., 'right': ..}` dict (each
entry an optional position).  Every frame in which some hand is inside
the *current target* zone appends a `StepEvent` and advances
`current_step`; there is no dwell latch on this path. -/
def check_step_progress (s : ProcessAnalysisService)
    (hands : List (Option (ℚ × ℚ))) (now : ℚ) : ProcessAnalysisService :=
  if !s.is_tracking || s.process_steps.isEmpty then s
  else
    let current_step_idx := s.session_data.current_step
    if h : current_step_idx < s.process_steps.length then
      let current := s.process_steps.get ⟨current_step_idx, h⟩
      match s.current_zones.find? (fun zone => zone.Id == current.TargetZoneId) with
      | none => s
      | some target_zone =>
          let hit_detected := hands.any (fun hand_pos =>
            hand_pos.isSome && check_zone_collision hand_pos target_zone)
          if hit_detected then
            let prev_time :=
              match s.session_data.step_events.getLast? with
              | some e => e.time
              | none => s.session_data.start_time.getD 0
            let step_event : StepEvent := {
              step_number := current_step_idx + 1,
              step_name := current.StepName,
              zone_hit := target_zone.ZoneName,
              time := now,
              duration := now - prev_time,
              target_duration := current.Duration }
            { s with session_data := { s.session_data with
                step_events := s.session_data.step_events ++ [step_event],
                current_step := current_step_idx + 1 } }
          else s
    else s

/-! ## Controller-side sessions and the streaming advancement path -/

/-- One entry of `analysis_controller.active_sessions`: the keys read or
written by the modelled handlers are `service`, `status` and `results`
(`results` only exists after a stop; modelled as `Option`, initially
`none`).  The metadata keys `environment_id`, `process_id`, `created_at`
are never read by the modelled operations and are omitted. -/
structure ApiSession where
  service : ProcessAnalysisService
  status : String
  results : Option AdherenceResult
deriving DecidableEq

/-- `tracking_controller.check_step_advancement` (lines 134-193) acting
on an already-looked-up session (a missing session id returns `False`
without touching any state; the surrounding `try/except` can only fire on
lookup errors that the typed embedding rules out).  Returns the `True` /
`False` "step advanced" flag together with the updated session. -/
def check_step_advancement (sess : ApiSession) (zone_id : ℕ) (now : ℚ) :
    Bool × ApiSession :=
  let service := sess.service
  if !service.is_tracking then (false, sess)
  else
    let current_step_idx := service.session_data.current_step
    if h : current_step_idx < service.process_steps.length then
      let current := service.process_steps.get ⟨current_step_idx, h⟩
      if zone_id = current.TargetZoneId then
        let prev_time :=
          match service.session_data.step_events.getLast? with
          | some e => e.time
          | none => service.session_data.start_time.getD 0
        let step_event : StepEvent := {
          step_number := current_step_idx + 1,
          step_name := current.StepName,
          zone_hit := current.ZoneName,
          time := now,
          duration := now - prev_time,
          target_duration := current.Duration }
        let service' := { service with session_data := { service.session_data with
            step_events := service.session_data.step_events ++ [step_event],
            current_step := current_step_idx + 1 } }
        let status' :=
          if service'.process_steps.length ≤ service'.session_data.current_step
          then "completed" else sess.status
        (true, { sess with service := service', status := status' })
      else (false, sess)
    else (false, sess)

/-- The per-zone slice of `generate_frames`' containment latch (lines
247-271): `inside` is membership of this zone's id in
`current_zone_detections`.  A frame with the hand inside fires
`check_step_advancement` only on the `false → true` edge; a frame with
the hand outside clears the latch.  Drawing and the entry-time log are
omitted (they feed no modelled state). -/
def run_zone_frames (zone_id : ℕ) :
    Bool × ApiSession → List (Bool × ℚ) → Bool × ApiSession
  | st, [] => st
  | (inside, sess), (in_zone, now) :: rest =>
      if in_zone then
        if inside then run_zone_frames zone_id (true, sess) rest
        else run_zone_frames zone_id
          (true, (check_step_advancement sess zone_id now).2) rest
      else run_zone_frames zone_id (false, sess) rest

/-! ## Analysis-controller handlers -/

/-- The per-session entry of `analysis_controller.session_zone_tracking`
(keys `current_zone`, `entry_time`). -/
structure ZoneTrack where
  current_zone : Option ℕ
  entry_time : Option ℚ
deriving DecidableEq

/-- `service.session_data.get('steps', [])`
(`analysis_controller.handle_zone_detection`, line 97): `session_data` is
only ever assigned in `ProcessAnalysisService.__init__` and
`start_tracking`, with keys `start_time` / `step_events` / `current_step`
/ `zone_hits` / `completion_times` (/ `process_id`); no code path in the
repository writes a `'steps'` key (the step list lives in
`service.process_steps`), so this lookup always yields its default `[]`. -/
def session_data_steps (sd : SessionData) : List StepDef :=
  match sd with
  | _ => []

/-- An HTTP reply, reduced to status code and the discriminating payload
field. -/
structure HttpReply where
  code : ℕ
  body : String
deriving DecidableEq

/-- `analysis_controller.handle_zone_detection` (lines 65-143) acting on
an already-looked-up session (`zt` is this session's
`session_zone_tracking` entry, created on first use).  The advancement
branch (lines 99-128) guards on `current_step < len(steps)` with `steps`
read from `session_data['steps']`; its appended dict (keys `step`,
`zoneName`, `targetDuration`, `actualDuration`, `timestamp`,
`adherence`) is rendered onto `StepEvent` fields by role — the branch is
unreachable because `session_data_steps` is always empty. -/
def handle_zone_detection (sess : ApiSession) (zt : Option ZoneTrack)
    (zone_id : ℕ) (event_type : String) (timestamp : ℚ) :
    ApiSession × ZoneTrack × HttpReply :=
  let zone_track := zt.getD { current_zone := none, entry_time := none }
  if event_type = "enter" then
    let zone_track : ZoneTrack :=
      { current_zone := some zone_id, entry_time := some timestamp }
    let current_step := sess.service.session_data.current_step
    let steps := session_data_steps sess.service.session_data
    if h : current_step < steps.length then
      let stepd := steps.get ⟨current_step, h⟩
      if zone_id = stepd.TargetZoneId then
        let step_event : StepEvent := {
          step_number := current_step + 1,
          step_name := "",
          zone_hit := stepd.ZoneName,
          time := timestamp,
          duration := 0,
          target_duration := stepd.Duration }
        let service := sess.service
        let service := { service with session_data := { service.session_data with
            step_events := service.session_data.step_events ++ [step_event],
            current_step := current_step + 1 } }
        let status :=
          if steps.length ≤ service.session_data.current_step
          then "completed" else sess.status
        ({ sess with service := service, status := status }, zone_track,
          { code := 200, body := "processed" })
      else (sess, zone_track, { code := 200, body := "processed" })
    else (sess, zone_track, { code := 200, body := "processed" })
  else if event_type = "exit" then
    if zone_track.current_zone = some zone_id then
      (sess, { current_zone := none, entry_time := none },
        { code := 200, body := "processed" })
    else (sess, zone_track, { code := 200, body := "processed" })
  else (sess, zone_track, { code := 200, body := "processed" })

/-- The result of `analysis_controller.stop_analysis` (lines 170-194):
404 on a missing session, otherwise HTTP 200 with
`{'status': 'completed', 'results': <stop_tracking result>}`. -/
inductive StopAnalysisResult where
  | notFound
  | completed (results : Option AdherenceResult)
deriving DecidableEq

/-- `analysis_controller.stop_analysis` (lines 170-194): stop the
session's service, mark the session completed, store and return the
results (which are `None` whenever the service was not tracking). -/
def stop_analysis (sess : Option ApiSession) (now : ℚ) :
    StopAnalysisResult × Option ApiSession :=
  match sess with
  | none => (.notFound, none)
  | some sess =>
      let r := stop_tracking sess.service now
      (.completed r.1,
        some { sess with service := r.2, status := "completed", results := r.1 })

/-! ## Signals

The operations that can reach one session's mutable step state while it
is live: a processed webcam frame (`process_frame` →
`check_step_progress`) or a streaming zone-entry report
(`generate_frames` → `check_step_advancement`). -/

inductive Signal where
  | frame (hands : List (Option (ℚ × ℚ))) (now : ℚ)
  | zoneEnter (zone_id : ℕ) (now : ℚ)
  | zoneDetected (zt : Option ZoneTrack) (zone_id : ℕ) (event_type : String) (timestamp : ℚ)
deriving DecidableEq

def applySignal (sess : ApiSession) : Signal → ApiSession
  | .frame hands now => { sess with service := check_step_progress sess.service hands now }
  | .zoneEnter zone_id now => (check_step_advancement sess zone_id now).2
  | .zoneDetected zt zone_id event_type timestamp =>
      (handle_zone_detection sess zt zone_id event_type timestamp).1

def applySignals (sess : ApiSession) (sigs : List Signal) : ApiSession :=
  sigs.foldl applySignal sess

/-- The step-log alignment invariant: the log length equals the step
pointer and the i-th event records step index `i + 1`. -/
def EventsInv (sd : SessionData) : Prop :=
  sd.step_events.length = sd.current_step ∧
  sd.step_events.map (fun e => e.step_number) = List.range' 1 sd.step_events.length

/-! ## Case analyses of the advancement paths -/

/-- `check_step_progress` either leaves the service untouched or, when
`current_step` is in range and a hand hit the target zone, appends one
event numbered `current_step + 1` and increments `current_step`. -/
theorem check_step_progress_spec (s : ProcessAnalysisService)
    (hands : List (Option (ℚ × ℚ))) (now : ℚ) :
    (check_step_progress s hands now).process_steps = s.process_steps ∧
    (check_step_progress s hands now).is_tracking = s.is_tracking ∧
    (check_step_progress s hands now = s ∨
      (s.session_data.current_step < s.process_steps.length ∧
       (check_step_progress s hands now).session_data.current_step
         = s.session_data.current_step + 1 ∧
       ∃ ev : StepEvent, ev.step_number = s.session_data.current_step + 1 ∧
         (check_step_progress s hands now).session_data.step_events
           = s.session_data.step_events ++ [ev])) := by
  simp only [check_step_progress]
  split
  next => exact ⟨rfl, rfl, Or.inl rfl⟩
  next =>
    split
    next h =>
      split
      next => exact ⟨rfl, rfl, Or.inl rfl⟩
      next =>
        split
        next => exact ⟨rfl, rfl, Or.inr ⟨h, rfl, ⟨_, rfl, rfl⟩⟩⟩
        next => exact ⟨rfl, rfl, Or.inl rfl⟩
    next => exact ⟨rfl, rfl, Or.inl rfl⟩

/-- `check_step_advancement` either leaves the session untouched or, when
tracking, `current_step` in range and the reported zone is the target,
appends one event numbered `current_step + 1` and increments
`current_step`. -/
theorem check_step_advancement_spec (sess : ApiSession) (zone_id : ℕ) (now : ℚ) :
    ((check_step_advancement sess zone_id now).2.service.process_steps
      = sess.service.process_steps) ∧
    ((check_step_advancement sess zone_id now).2 = sess ∨
      (sess.service.session_data.current_step < sess.service.process_steps.length ∧
       (check_step_advancement sess zone_id now).2.service.session_data.current_step
         = sess.service.session_data.current_step + 1 ∧
       ∃ ev : StepEvent, ev.step_number = sess.service.session_data.current_step + 1 ∧
         (check_step_advancement sess zone_id now).2.service.session_data.step_events
           = sess.service.session_data.step_events ++ [ev])) := by
  simp only [check_step_advancement]
  split
  next => exact ⟨rfl, Or.inl rfl⟩
  next =>
    split
    next h =>
      split
      next => exact ⟨rfl, Or.inr ⟨h, rfl, ⟨_, rfl, rfl⟩⟩⟩
      next => exact ⟨rfl, Or.inl rfl⟩
    next => exact ⟨rfl, Or.inl rfl⟩

/-- `handle_zone_detection` never changes the session entry: the only
step-advancing branch guards on `current_step < len(session_data['steps'])`
and that list is always empty. -/
theorem handle_zone_detection_session_unchanged (sess : ApiSession)
    (zt : Option ZoneTrack) (zone_id : ℕ) (event_type : String) (timestamp : ℚ) :
    (handle_zone_detection sess zt zone_id event_type timestamp).1 = sess := by
  simp only [handle_zone_detection]
  split
  next =>
    split
    next h => exact absurd h (by simp [session_data_steps])
    next => rfl
  next =>
    split
    next =>
      split
      next => rfl
      next => rfl
    next => rfl

/-- One signal either leaves the session untouched or appends exactly one
event, numbered `current_step + 1`, while incrementing `current_step`
from a position strictly below the step count. -/
theorem applySignal_spec (sess : ApiSession) (sig : Signal) :
    ((applySignal sess sig).service.process_steps = sess.service.process_steps) ∧
    (applySignal sess sig = sess ∨
      (sess.service.session_data.current_step < sess.service.process_steps.length ∧
       (applySignal sess sig).service.session_data.current_step
         = sess.service.session_data.current_step + 1 ∧
       ∃ ev : StepEvent, ev.step_number = sess.service.session_data.current_step + 1 ∧
         (applySignal sess sig).service.session_data.step_events
           = sess.service.session_data.step_events ++ [ev])) := by
  cases sig with
  | frame hands now =>
      obtain ⟨h1, -, h3⟩ := check_step_progress_spec sess.service hands now
      refine ⟨h1, ?_⟩
      rcases h3 with h | ⟨ha, hb, ev, hc, hd⟩
      · exact Or.inl (by show { sess with service := _ } = sess; rw [h])
      · exact Or.inr ⟨ha, hb, ev, hc, hd⟩
  | zoneEnter zone_id now =>
      obtain ⟨h1, h3⟩ := check_step_advancement_spec sess zone_id now
      exact ⟨h1, h3⟩
  | zoneDetected zt zone_id event_type timestamp =>
      have h := handle_zone_detection_session_unchanged sess zt zone_id event_type timestamp
      exact ⟨by rw [show applySignal sess (.zoneDetected zt zone_id event_type timestamp)
        = (handle_zone_detection sess zt zone_id event_type timestamp).1 from rfl, h],
        Or.inl h⟩

/-- A signal arriving with the process already complete
(`current_step = len(steps)`) is a no-op on the whole session. -/
theorem applySignal_complete_noop (sess : ApiSession) (sig : Signal)
    (h : sess.service.session_data.current_step = sess.service.process_steps.length) :
    applySignal sess sig = sess := by
  rcases (applySignal_spec sess sig).2 with heq | ⟨hlt, -⟩
  · exact heq
  · omega

/-- Per-signal monotonicity and in-range preservation of the step
pointer. -/
theorem applySignal_mono (sess : ApiSession) (sig : Signal) :
    sess.service.session_data.current_step
      ≤ (applySignal sess sig).service.session_data.current_step ∧
    ((applySignal sess sig).service.process_steps = sess.service.process_steps) ∧
    (sess.service.session_data.current_step ≤ sess.service.process_steps.length →
      (applySignal sess sig).service.session_data.current_step
        ≤ sess.service.process_steps.length) := by
  obtain ⟨h1, h2⟩ := applySignal_spec sess sig
  rcases h2 with heq | ⟨hlt, hcs, -⟩
  · rw [heq]; exact ⟨le_refl _, rfl, fun hb => hb⟩
  · exact ⟨by omega, h1, fun _ => by omega⟩

/-- Folded form of `applySignal_mono` over a list of signals. -/
theorem applySignals_mono (sigs : List Signal) : ∀ sess : ApiSession,
    sess.service.session_data.current_step
      ≤ (applySignals sess sigs).service.session_data.current_step ∧
    ((applySignals sess sigs).service.process_steps = sess.service.process_steps) ∧
    (sess.service.session_data.current_step ≤ sess.service.process_steps.length →
      (applySignals sess sigs).service.session_data.current_step
        ≤ sess.service.process_steps.length) := by
  induction sigs with
  | nil => exact fun sess => ⟨le_refl _, rfl, fun hb => hb⟩
  | cons sig rest ih =>
      intro sess
      obtain ⟨m1, m2, m3⟩ := applySignal_mono sess sig
      obtain ⟨r1, r2, r3⟩ := ih (applySignal sess sig)
      have hfold : applySignals sess (sig :: rest)
          = applySignals (applySignal sess sig) rest := rfl
      refine ⟨?_, ?_, ?_⟩
      · rw [hfold]; exact le_trans m1 r1
      · rw [hfold, r2, m2]
      · intro hb
        rw [hfold]
        have := r3 (by rw [m2]; exact m3 hb)
        rw [m2] at this
        exact this

/-- `EventsInv` is preserved by every signal. -/
theorem EventsInv_applySignal (sess : ApiSession) (sig : Signal)
    (hInv : EventsInv sess.service.session_data) :
    EventsInv ((applySignal sess sig).service.session_data) := by
  rcases (applySignal_spec sess sig).2 with heq | ⟨-, hcs, ev, hnum, hev⟩
  · rwa [heq]
  · obtain ⟨hlen, hmap⟩ := hInv
    constructor
    · rw [hev, hcs, List.length_append, hlen]
      rfl
    · rw [hev, List.map_append, hmap, List.length_append]
      have hn : ev.step_number = sess.service.session_data.step_events.length + 1 := by
        omega
      simp [hn, List.range'_concat]
      omega

/-- `EventsInv` is preserved by every sequence of signals. -/
theorem EventsInv_applySignals (sigs : List Signal) : ∀ sess : ApiSession,
    EventsInv sess.service.session_data →
    EventsInv ((applySignals sess sigs).service.session_data) := by
  induction sigs with
  | nil => exact fun _ h => h
  | cons sig rest ih =>
      intro sess h
      exact ih (applySignal sess sig) (EventsInv_applySignal sess sig h)

/-! ## Theorems -/

/-- C9: the containment predicate returns true iff the detection
confidence is strictly greater than the threshold and the point lies
within the zone's horizontal and vertical extent, bounds inclusive (for
the service-side `check_zone_collision` the inclusive rectangle test,
its confidence gate living in the caller `get_hand_positions`).  Both
predicates are pure functions of their arguments, so they have no side
effects. -/
theorem C9_contains_iff (zone : ZoneBox) (conf_threshold : ℚ)
    (kp : List Point) (idx : ℕ) (p : Point) (hidx : kp.get? idx = some p)
    (zr : Zone) (hx hy : ℚ) :
    (wrist_in_zone kp idx zone conf_threshold = true ↔
      (conf_threshold < p.conf ∧
        zone.x ≤ p.x ∧ p.x ≤ zone.x + zone.width ∧
        zone.y ≤ p.y ∧ p.y ≤ zone.y + zone.height)) ∧
    (check_zone_collision (some (hx, hy)) zr = true ↔
      (zr.Xstart ≤ hx ∧ hx ≤ zr.Xend ∧ zr.Ystart ≤ hy ∧ hy ≤ zr.Yend)) := by
  constructor
  · unfold wrist_in_zone
    rw [hidx]
    by_cases hc : p.conf > conf_threshold
    · simp [hc]
    · simp [hc]
  · unfold check_zone_collision
    simp

def c9_point : Point := { x := 5, y := 7, conf := 1 }

def c9_box : ZoneBox := { id := 1, name := "A", x := 0, y := 0, width := 10, height := 10 }

def c9_zone : Zone :=
  { Id := 1, ZoneName := "A", Xstart := 0, Ystart := 0, Xend := 10, Yend := 10, Color := "#ff0000" }

/-- Witness for `C9_contains_iff` at a concrete keypoint and zone. -/
theorem C9_contains_iff_witness :
    ([c9_point].get? 0 = some c9_point) ∧
    ((wrist_in_zone [c9_point] 0 c9_box 0 = true ↔
      ((0:ℚ) < c9_point.conf ∧
        c9_box.x ≤ c9_point.x ∧ c9_point.x ≤ c9_box.x + c9_box.width ∧
        c9_box.y ≤ c9_point.y ∧ c9_point.y ≤ c9_box.y + c9_box.height)) ∧
    (check_zone_collision (some (3, 4)) c9_zone = true ↔
      (c9_zone.Xstart ≤ 3 ∧ (3:ℚ) ≤ c9_zone.Xend ∧ c9_zone.Ystart ≤ 4 ∧ (4:ℚ) ≤ c9_zone.Yend))) :=
  ⟨by decide, C9_contains_iff c9_box 0 [c9_point] 0 c9_point (by decide) c9_zone 3 4⟩

/-- C2: the per-event timing score is 100 for `ratio ≤ 1.2`,
`max(0, 100 − (ratio−1)·100)` for `1.2 < ratio ≤ 2.0` and 0 for
`ratio > 2.0`; `timing_adherence` is the mean of the per-event scores;
`completion_adherence = 100 · completed / total`; and the overall
adherence is `0.7 · completion_adherence + 0.3 · timing_adherence`. -/
theorem C2_adherence_formulas (ev : StepEvent) (events : List StepEvent)
    (completed_steps total_steps : ℕ) (hne : events ≠ []) :
    (ev.duration / ev.target_duration ≤ 6/5 → timing_score ev = 100) ∧
    (6/5 < ev.duration / ev.target_duration → ev.duration / ev.target_duration ≤ 2 →
      timing_score ev = max 0 (100 - (ev.duration / ev.target_duration - 1) * 100)) ∧
    (2 < ev.duration / ev.target_duration → timing_score ev = 0) ∧
    avg_timing_adherence events = (events.map timing_score).sum / ((events.length : ℕ) : ℚ) ∧
    completion_adherence_calc completed_steps total_steps
      = 100 * (completed_steps : ℚ) / (total_steps : ℚ) ∧
    overall_adherence_calc (completion_adherence_calc completed_steps total_steps)
        (avg_timing_adherence events)
      = (7/10) * completion_adherence_calc completed_steps total_steps
        + (3/10) * avg_timing_adherence events := by
  refine ⟨?_, ?_, ?_, ?_, ?_, ?_⟩
  · intro h
    simp only [timing_score]
    rw [if_pos h]
  · intro h1 h2
    simp only [timing_score]
    rw [if_neg (not_le.mpr h1), if_pos h2]
  · intro h
    have h1 : (6:ℚ)/5 < ev.duration / ev.target_duration :=
      lt_trans (by norm_num) h
    simp only [timing_score]
    rw [if_neg (not_le.mpr h1), if_neg (not_le.mpr h)]
  · cases events with
    | nil => exact absurd rfl hne
    | cons a l => simp [avg_timing_adherence]
  · unfold completion_adherence_calc
    ring
  · unfold overall_adherence_calc
    ring

def c2_event : StepEvent :=
  { step_number := 1, step_name := "s1", zone_hit := "A",
    time := 10, duration := 10, target_duration := 10 }

/-- Witness for `C2_adherence_formulas` at a concrete event list. -/
theorem C2_adherence_formulas_witness :
    ([c2_event] ≠ ([] : List StepEvent)) ∧
    ((c2_event.duration / c2_event.target_duration ≤ 6/5 → timing_score c2_event = 100) ∧
    (6/5 < c2_event.duration / c2_event.target_duration →
        c2_event.duration / c2_event.target_duration ≤ 2 →
      timing_score c2_event =
        max 0 (100 - (c2_event.duration / c2_event.target_duration - 1) * 100)) ∧
    (2 < c2_event.duration / c2_event.target_duration → timing_score c2_event = 0) ∧
    avg_timing_adherence [c2_event]
      = ([c2_event].map timing_score).sum / ((([c2_event].length : ℕ)) : ℚ) ∧
    completion_adherence_calc 1 1 = 100 * ((1:ℕ) : ℚ) / ((1:ℕ) : ℚ) ∧
    overall_adherence_calc (completion_adherence_calc 1 1) (avg_timing_adherence [c2_event])
      = (7/10) * completion_adherence_calc 1 1 + (3/10) * avg_timing_adherence [c2_event]) :=
  ⟨by decide, C2_adherence_formulas c2_event [c2_event] 1 1 (by decide)⟩

/-- C7: stopping a tracking session whose step-event log is empty yields
the explicit `{'adherence_score': 0, 'message': 'No steps completed'}`
result: the empty-log branch of `calculate_adherence_metrics` returns
before any division is evaluated, so no division by zero occurs (the
embedding is a total function). -/
theorem C7_empty_log_stop (s : ProcessAnalysisService) (now : ℚ)
    (htr : s.is_tracking = true) (hemp : s.session_data.step_events = []) :
    (stop_tracking s now).1 = some (.noSteps 0 "No steps completed") := by
  simp [stop_tracking, htr, calculate_adherence_metrics, hemp]

def c7_service : ProcessAnalysisService :=
  { is_tracking := true,
    current_process := some { Id := 1, ProcessName := "assembly" },
    current_zones := [c9_zone],
    process_steps := [{ StepName := "s1", TargetZoneId := 1, ZoneName := "A", Duration := 5 }],
    session_data := { start_time := some 0, step_events := [], current_step := 0,
                      zone_hits := [], completion_times := [], process_id := some 1 },
    conf_threshold := 0 }

/-- Witness for `C7_empty_log_stop` on a concrete empty-log session. -/
theorem C7_empty_log_stop_witness :
    (c7_service.is_tracking = true ∧ c7_service.session_data.step_events = []) ∧
    (stop_tracking c7_service 9).1 = some (.noSteps 0 "No steps completed") :=
  ⟨⟨by decide, by decide⟩, C7_empty_log_stop c7_service 9 (by decide) (by decide)⟩

def c3_service : ProcessAnalysisService :=
  { is_tracking := true,
    current_process := some { Id := 1, ProcessName := "assembly" },
    current_zones := [c9_zone],
    process_steps := [{ StepName := "s1", TargetZoneId := 1, ZoneName := "A", Duration := 5 }],
    session_data := { start_time := some 0,
                      step_events := [{ step_number := 1, step_name := "s1", zone_hit := "A",
                                        time := 3, duration := 3, target_duration := 5 }],
                      current_step := 1,
                      zone_hits := [], completion_times := [], process_id := some 1 },
    conf_threshold := 0 }

/-- C3 counterexample: the first `stop_tracking` call on a tracking
session returns a report, but the second call returns `None` (the
`is_tracking` guard), so the two calls do not return the same
`AdherenceReport`. -/
theorem C3_counterexample :
    ((stop_tracking c3_service 10).1.isSome = true) ∧
    ((stop_tracking (stop_tracking c3_service 10).2 20).1 = none) := by
  constructor
  · rfl
  · rfl

/-- C3 amended: a second `stop_tracking` call returns `None` rather than
the first call's report; the second call leaves the whole service state
unchanged, and neither call mutates `current_step` or `step_events`. -/
theorem C3_second_stop_none (s : ProcessAnalysisService) (t1 t2 : ℚ)
    (h : s.is_tracking = true) :
    ((stop_tracking s t1).1.isSome = true) ∧
    ((stop_tracking (stop_tracking s t1).2 t2).1 = none) ∧
    ((stop_tracking (stop_tracking s t1).2 t2).2 = (stop_tracking s t1).2) ∧
    ((stop_tracking s t1).2.session_data.current_step = s.session_data.current_step) ∧
    ((stop_tracking s t1).2.session_data.step_events = s.session_data.step_events) := by
  simp [stop_tracking, h]

/-- Witness for `C3_second_stop_none` on a concrete tracking session. -/
theorem C3_second_stop_none_witness :
    (c3_service.is_tracking = true) ∧
    (((stop_tracking c3_service 10).1.isSome = true) ∧
    ((stop_tracking (stop_tracking c3_service 10).2 20).1 = none) ∧
    ((stop_tracking (stop_tracking c3_service 10).2 20).2 = (stop_tracking c3_service 10).2) ∧
    ((stop_tracking c3_service 10).2.session_data.current_step
      = c3_service.session_data.current_step) ∧
    ((stop_tracking c3_service 10).2.session_data.step_events
      = c3_service.session_data.step_events)) :=
  ⟨by decide, C3_second_stop_none c3_service 10 20 (by decide)⟩

def c8_ready_session : ApiSession :=
  { service :=
    { is_tracking := false,
      current_process := some { Id := 1, ProcessName := "assembly" },
      current_zones := [c9_zone],
      process_steps := [{ StepName := "s1", TargetZoneId := 1, ZoneName := "A", Duration := 5 }],
      session_data := { start_time := none, step_events := [], current_step := 0,
                        zone_hits := [], completion_times := [], process_id := none },
      conf_threshold := 0 },
    status := "ready",
    results := none }

/-- C8 counterexample: stopping a Ready session (created, never started)
returns HTTP 200 with `{'status': 'completed', 'results': None}` — a
success response carrying no report — not a `NotTracking` error (no such
error exists anywhere in the code). -/
theorem C8_counterexample :
    (stop_analysis (some c8_ready_session) 5).1 = .completed none := by
  rfl

/-- C8 amended: calling stop on a session whose service is not tracking
(in particular a Ready session) produces no error and no report: the
service-level `stop_tracking` returns `None`, and `stop_analysis`
responds 200 with status `'completed'` and `results = None`, marking the
session completed. -/
theorem C8_stop_ready_no_error (sess : ApiSession) (now : ℚ)
    (h : sess.service.is_tracking = false) :
    stop_analysis (some sess) now =
      (.completed none, some { sess with status := "completed", results := none }) := by
  simp [stop_analysis, stop_tracking, h]

/-- Witness for `C8_stop_ready_no_error` on a concrete Ready session. -/
theorem C8_stop_ready_no_error_witness :
    (c8_ready_session.service.is_tracking = false) ∧
    stop_analysis (some c8_ready_session) 5 =
      (.completed none, some { c8_ready_session with status := "completed", results := none }) :=
  ⟨by decide, C8_stop_ready_no_error c8_ready_session 5 (by decide)⟩

/-- C4: across any sequence of signals, `current_step` never decreases
and never exceeds the step count, and a signal arriving once
`current_step = len(steps)` leaves the whole session unchanged. -/
theorem C4_monotonic_bounded (sess : ApiSession) (sigs : List Signal)
    (hb : sess.service.session_data.current_step ≤ sess.service.process_steps.length) :
    sess.service.session_data.current_step
      ≤ (applySignals sess sigs).service.session_data.current_step ∧
    (applySignals sess sigs).service.session_data.current_step
      ≤ (applySignals sess sigs).service.process_steps.length ∧
    (sess.service.session_data.current_step = sess.service.process_steps.length →
      ∀ sig : Signal, applySignal sess sig = sess) := by
  obtain ⟨m1, m2, m3⟩ := applySignals_mono sigs sess
  exact ⟨m1, by rw [m2]; exact m3 hb,
    fun hc sig => applySignal_complete_noop sess sig hc⟩

def c4_session : ApiSession :=
  { service :=
    { is_tracking := true,
      current_process := some { Id := 1, ProcessName := "assembly" },
      current_zones := [c9_zone],
      process_steps := [{ StepName := "s1", TargetZoneId := 1, ZoneName := "A", Duration := 5 }],
      session_data := { start_time := some 0, step_events := [], current_step := 0,
                        zone_hits := [], completion_times := [], process_id := some 1 },
      conf_threshold := 0 },
    status := "tracking",
    results := none }

def c4_sigs : List Signal := [Signal.zoneEnter 1 1, Signal.frame [some (5, 5)] 2]

/-- Witness for `C4_monotonic_bounded` on a concrete session and signal
sequence. -/
theorem C4_monotonic_bounded_witness :
    (c4_session.service.session_data.current_step
      ≤ c4_session.service.process_steps.length) ∧
    (c4_session.service.session_data.current_step
      ≤ (applySignals c4_session c4_sigs).service.session_data.current_step ∧
    (applySignals c4_session c4_sigs).service.session_data.current_step
      ≤ (applySignals c4_session c4_sigs).service.process_steps.length ∧
    (c4_session.service.session_data.current_step = c4_session.service.process_steps.length →
      ∀ sig : Signal, applySignal c4_session sig = c4_session)) :=
  ⟨by decide, C4_monotonic_bounded c4_session c4_sigs (by decide)⟩

/-- C5: while tracking, an Enter report for a zone other than the current
step's target (including any future step's zone) is a complete no-op on
both advancement paths — `check_step_advancement` returns `False` with
the session unchanged, and a `check_step_progress` frame whose hands miss
the target zone leaves the service unchanged: no `StepEvent`, no skip, no
penalty. -/
theorem C5_wrong_zone_noop
    (sess : ApiSession) (zone_id : ℕ) (now : ℚ) (stepd : StepDef)
    (htr : sess.service.is_tracking = true)
    (hstep : sess.service.process_steps.get? sess.service.session_data.current_step
      = some stepd)
    (hz : zone_id ≠ stepd.TargetZoneId)
    (s : ProcessAnalysisService) (hands : List (Option (ℚ × ℚ))) (t : ℚ)
    (stepd2 : StepDef) (tz : Zone)
    (hstep2 : s.process_steps.get? s.session_data.current_step = some stepd2)
    (hfind : s.current_zones.find? (fun zone => zone.Id == stepd2.TargetZoneId) = some tz)
    (hmiss : ∀ hp ∈ hands, check_zone_collision hp tz = false) :
    check_step_advancement sess zone_id now = (false, sess) ∧
    check_step_progress s hands t = s := by
  constructor
  · simp only [check_step_advancement]
    split
    next => rfl
    next =>
      split
      next h =>
        split
        next heq =>
          exfalso
          have hg : sess.service.process_steps.get
              ⟨sess.service.session_data.current_step, h⟩ = stepd := by
            rw [List.get?_eq_get h] at hstep
            exact Option.some.inj hstep
          rw [hg] at heq
          exact hz heq
        next => rfl
      next => rfl
  · simp only [check_step_progress]
    split
    next => rfl
    next =>
      split
      next h =>
        have hg : s.process_steps.get ⟨s.session_data.current_step, h⟩ = stepd2 := by
          rw [List.get?_eq_get h] at hstep2
          exact Option.some.inj hstep2
        split
        next => rfl
        next tz' hfind' =>
          split
          next hhit =>
            exfalso
            rw [hg] at hfind'
            rw [hfind'] at hfind
            have htz : tz' = tz := Option.some.inj hfind
            subst htz
            rw [List.any_eq_true] at hhit
            obtain ⟨hp, hmem, hcol⟩ := hhit
            rw [Bool.and_eq_true] at hcol
            rw [hmiss hp hmem] at hcol
            exact Bool.false_ne_true hcol.2
          next => rfl
      next => rfl

def c5_step : StepDef := { StepName := "s1", TargetZoneId := 1, ZoneName := "A", Duration := 5 }

def c5_service : ProcessAnalysisService :=
  { is_tracking := true,
    current_process := some { Id := 1, ProcessName := "assembly" },
    current_zones := [c9_zone],
    process_steps := [c5_step],
    session_data := { start_time := some 0, step_events := [], current_step := 0,
                      zone_hits := [], completion_times := [], process_id := some 1 },
    conf_threshold := 0 }

def c5_session : ApiSession :=
  { service := c5_service, status := "tracking", results := none }

/-- Witness for `C5_wrong_zone_noop` on a concrete wrong-zone report. -/
theorem C5_wrong_zone_noop_witness :
    (c5_session.service.is_tracking = true ∧
     c5_session.service.process_steps.get? c5_session.service.session_data.current_step
       = some c5_step ∧
     (99 : ℕ) ≠ c5_step.TargetZoneId ∧
     c5_service.process_steps.get? c5_service.session_data.current_step = some c5_step ∧
     c5_service.current_zones.find? (fun zone => zone.Id == c5_step.TargetZoneId)
       = some c9_zone ∧
     (∀ hp ∈ [some ((200 : ℚ), (200 : ℚ))], check_zone_collision hp c9_zone = false)) ∧
    (check_step_advancement c5_session 99 7 = (false, c5_session) ∧
     check_step_progress c5_service [some ((200 : ℚ), (200 : ℚ))] 8 = c5_service) :=
  ⟨⟨by decide, by decide, by decide, by decide, by decide, by decide⟩,
    C5_wrong_zone_noop c5_session 99 7 c5_step (by decide) (by decide) (by decide)
      c5_service [some ((200 : ℚ), (200 : ℚ))] 8 c5_step c9_zone
      (by decide) (by decide) (by decide)⟩

/-- C6: from a freshly started session, after any sequence of signals the
log and the pointer stay aligned — `len(step_events) = current_step` and
the i-th event records step index `i + 1` (`EventsInv`); stopping never
touches `session_data`, so the invariant also survives `stop_tracking`. -/
theorem C6_step_log_aligned (s : ProcessAnalysisService) (t : ℚ)
    (s' : ProcessAnalysisService) (hstart : start_tracking s t = some s')
    (st0 : String) (res0 : Option AdherenceResult) (sigs : List Signal)
    (svc : ProcessAnalysisService) (t2 : ℚ) :
    EventsInv ((applySignals { service := s', status := st0, results := res0 } sigs).service.session_data) ∧
    (stop_tracking svc t2).2.session_data = svc.session_data := by
  constructor
  · have h0 : EventsInv s'.session_data := by
      unfold start_tracking at hstart
      cases hcp : s.current_process with
      | none => rw [hcp] at hstart; simp at hstart
      | some proc =>
          rw [hcp] at hstart
          cases he : s.process_steps.isEmpty with
          | true => simp [he] at hstart
          | false =>
              simp [he] at hstart
              subst hstart
              exact ⟨rfl, rfl⟩
    exact EventsInv_applySignals sigs _ h0
  · simp only [stop_tracking]
    split
    next => rfl
    next => rfl

def c6_base_service : ProcessAnalysisService :=
  { is_tracking := false,
    current_process := some { Id := 1, ProcessName := "assembly" },
    current_zones := [c9_zone],
    process_steps := [c5_step],
    session_data := { start_time := none, step_events := [], current_step := 0,
                      zone_hits := [], completion_times := [], process_id := none },
    conf_threshold := 0 }

def c6_started_service : ProcessAnalysisService :=
  { c6_base_service with
    is_tracking := true,
    session_data := { start_time := some 0, step_events := [], current_step := 0,
                      zone_hits := [], completion_times := [], process_id := some 1 } }

def c6_session : ApiSession :=
  { service := c6_started_service, status := "tracking", results := none }

/-- Witness for `C6_step_log_aligned` on a concrete started session. -/
theorem C6_step_log_aligned_witness :
    (start_tracking c6_base_service 0 = some c6_started_service) ∧
    (EventsInv ((applySignals c6_session [Signal.zoneEnter 1 1]).service.session_data) ∧
     (stop_tracking c6_started_service 2).2.session_data
       = c6_started_service.session_data) :=
  ⟨by decide, C6_step_log_aligned c6_base_service 0 c6_started_service (by decide)
    "tracking" none [Signal.zoneEnter 1 1] c6_started_service 2⟩

/-- C10: any `'enter'` zone-detected POST on an existing session is a
no-op on the session: `session_data.get('steps', [])` always returns `[]`
(no code path ever writes that key — steps live in
`service.process_steps`), so no `StepEvent` is appended and
`current_step` never changes, while the handler still replies HTTP 200
with status `'processed'`. -/
theorem C10_zone_detected_enter_noop (sess : ApiSession) (zt : Option ZoneTrack)
    (zone_id : ℕ) (timestamp : ℚ) :
    session_data_steps sess.service.session_data = [] ∧
    (handle_zone_detection sess zt zone_id "enter" timestamp).1 = sess ∧
    (handle_zone_detection sess zt zone_id "enter" timestamp).2.2
      = { code := 200, body := "processed" } := by
  refine ⟨rfl, handle_zone_detection_session_unchanged sess zt zone_id "enter" timestamp, ?_⟩
  simp only [handle_zone_detection]
  rw [if_pos trivial, dif_neg (by simp [session_data_steps])]

/-! ### C1: dwell coalescing -/

/-- Once the latch is set, a run of contained frames never calls
`check_step_advancement` again. -/
theorem run_zone_frames_latched (zone_id : ℕ) (sess : ApiSession) :
    ∀ frames : List (Bool × ℚ), (∀ f ∈ frames, f.1 = true) →
    run_zone_frames zone_id (true, sess) frames = (true, sess) := by
  intro frames
  induction frames with
  | nil => intro _; rfl
  | cons f rest ih =>
      intro hall
      obtain ⟨b, tt⟩ := f
      have hb : b = true := hall (b, tt) (List.mem_cons_self _ _)
      subst hb
      have hstep : run_zone_frames zone_id (true, sess) ((true, tt) :: rest)
          = run_zone_frames zone_id (true, sess) rest := rfl
      rw [hstep]
      exact ih (fun f hf => hall f (List.mem_cons_of_mem _ hf))

/-- One `check_step_advancement` call grows the log by at most one event
and the pointer by at most one. -/
theorem check_step_advancement_growth (sess : ApiSession) (zone_id : ℕ) (now : ℚ) :
    (check_step_advancement sess zone_id now).2.service.session_data.step_events.length
      ≤ sess.service.session_data.step_events.length + 1 ∧
    (check_step_advancement sess zone_id now).2.service.session_data.current_step
      ≤ sess.service.session_data.current_step + 1 := by
  rcases (check_step_advancement_spec sess zone_id now).2 with heq | ⟨-, hcs, ev, -, hev⟩
  · rw [heq]; exact ⟨Nat.le_succ _, Nat.le_succ _⟩
  · constructor
    · rw [hev]; simp
    · omega

/-- C1 amended: in the streaming path (`generate_frames`), where per-zone
containment is latched, a run of consecutive contained frames for a zone
with no intervening non-contained frame appends at most one `StepEvent`
and advances `current_step` at most once (the per-frame
`check_step_progress` path has no such latch; see the counterexample). -/
theorem C1_dwell_single_advance (zone_id : ℕ) (inside : Bool) (sess : ApiSession)
    (frames : List (Bool × ℚ)) (hall : ∀ f ∈ frames, f.1 = true) :
    (run_zone_frames zone_id (inside, sess) frames).2.service.session_data.step_events.length
      ≤ sess.service.session_data.step_events.length + 1 ∧
    (run_zone_frames zone_id (inside, sess) frames).2.service.session_data.current_step
      ≤ sess.service.session_data.current_step + 1 := by
  cases frames with
  | nil => exact ⟨Nat.le_succ _, Nat.le_succ _⟩
  | cons f rest =>
      obtain ⟨b, tt⟩ := f
      have hb : b = true := hall (b, tt) (List.mem_cons_self _ _)
      subst hb
      have hrest : ∀ f ∈ rest, f.1 = true := fun f hf => hall f (List.mem_cons_of_mem _ hf)
      cases inside with
      | true =>
          have hstep : run_zone_frames zone_id (true, sess) ((true, tt) :: rest)
              = run_zone_frames zone_id (true, sess) rest := rfl
          rw [hstep, run_zone_frames_latched zone_id sess rest hrest]
          exact ⟨Nat.le_succ _, Nat.le_succ _⟩
      | false =>
          have hstep : run_zone_frames zone_id (false, sess) ((true, tt) :: rest)
              = run_zone_frames zone_id
                  (true, (check_step_advancement sess zone_id tt).2) rest := rfl
          rw [hstep, run_zone_frames_latched zone_id
            ((check_step_advancement sess zone_id tt).2) rest hrest]
          exact check_step_advancement_growth sess zone_id tt

def c1_zone : Zone :=
  { Id := 1, ZoneName := "Z", Xstart := 0, Ystart := 0, Xend := 10, Yend := 10,
    Color := "#00ff00" }

def c1_service : ProcessAnalysisService :=
  { is_tracking := true,
    current_process := some { Id := 1, ProcessName := "assembly" },
    current_zones := [c1_zone],
    process_steps := [{ StepName := "s1", TargetZoneId := 1, ZoneName := "Z", Duration := 5 },
                      { StepName := "s2", TargetZoneId := 1, ZoneName := "Z", Duration := 5 }],
    session_data := { start_time := some 0, step_events := [], current_step := 0,
                      zone_hits := [], completion_times := [], process_id := some 1 },
    conf_threshold := 0 }

def c1_hands : List (Option (ℚ × ℚ)) := [some (5, 5)]

/-- C1 counterexample: on the per-frame `check_step_progress` path there
is no dwell latch.  With two consecutive steps both targeting zone 1 and
a hand resting at (5,5) inside that zone for two consecutive frames —
contained is true in both, with no intervening contained-false signal —
two `StepEvent`s are appended and `current_step` advances twice. -/
theorem C1_counterexample :
    check_zone_collision (some (5, 5)) c1_zone = true ∧
    (check_step_progress c1_service c1_hands 1).session_data.current_step = 1 ∧
    (check_step_progress (check_step_progress c1_service c1_hands 1)
        c1_hands 2).session_data.current_step = 2 ∧
    (check_step_progress (check_step_progress c1_service c1_hands 1)
        c1_hands 2).session_data.step_events.length = 2 := by
  decide

def c1_sess : ApiSession :=
  { service := c5_service, status := "tracking", results := none }

def c1_frames : List (Bool × ℚ) := [(true, 1), (true, 2), (true, 3)]

/-- Witness for `C1_dwell_single_advance` on a concrete three-frame
contained run. -/
theorem C1_dwell_single_advance_witness :
    (∀ f ∈ c1_frames, f.1 = true) ∧
    ((run_zone_frames 1 (false, c1_sess) c1_frames).2.service.session_data.step_events.length
      ≤ c1_sess.service.session_data.step_events.length + 1 ∧
    (run_zone_frames 1 (false, c1_sess) c1_frames).2.service.session_data.current_step
      ≤ c1_sess.service.session_data.current_step + 1) :=
  ⟨by decide, C1_dwell_single_advance 1 false c1_sess c1_frames (by decide)⟩

end Ergonomics
